import Mathlib

/-!
Verification development for the agentmonitor ingest/store core.

The definitions below are a shallow embedding of the TypeScript source:
  * `src/db/schema.ts`   — table shapes, the `event_type` CHECK constraint,
                           the UNIQUE constraint on `event_id`;
  * `src/db/queries.ts`  — `upsertAgent`, `upsertSession`, `endSession`,
                           `updateIdleSessions`, `truncateMetadata`,
                           `insertEvent`, `getEvents`, `getSessions`,
                           `getStats`;
  * `src/sse/emitter.ts` — `SSEBroadcaster.addClient` / `clientCount`;
  * `src/server.ts`      — the periodic session checker.

Timestamps are modelled as natural numbers (SQLite `datetime('now')` strings
compare lexicographically, i.e. chronologically); SQL tables are lists of
row structures; `datetime('now')` is an explicit `now` parameter.  JavaScript
`x || y` coercions (empty string to NULL, 0 to a default) are modelled
explicitly where the source relies on them.
-/

namespace AgentMonitor

/-- The event-type vocabulary of the contract enumeration used by the spec
(the TS `EventType` union imported by `insertEvent`). -/
inductive EventType where
  | tool_use
  | session_start
  | session_end
  | response
  | error
  | user_prompt
  | llm_request
  | llm_response
  | plan_step
  | file_change
  | git_commit
deriving DecidableEq, Repr

/-- Wire string of an event type, as it reaches the SQL layer. -/
def eventTypeStr : EventType → String
  | .tool_use => "tool_use"
  | .session_start => "session_start"
  | .session_end => "session_end"
  | .response => "response"
  | .error => "error"
  | .user_prompt => "user_prompt"
  | .llm_request => "llm_request"
  | .llm_response => "llm_response"
  | .plan_step => "plan_step"
  | .file_change => "file_change"
  | .git_commit => "git_commit"

/-- The CHECK constraint on `events.event_type` in `src/db/schema.ts`:
`CHECK (event_type IN ('tool_use', 'session_start', 'session_end',
'response', 'error'))`. -/
def schemaAllowsEventType (t : EventType) : Bool :=
  ["tool_use", "session_start", "session_end", "response", "error"].contains
    (eventTypeStr t)

/-- `status` enum of events (`CHECK (status IN ('success','error','timeout'))`). -/
inductive EventStatus where
  | success
  | error
  | timeout
deriving DecidableEq, Repr

/-- Session lifecycle status strings `'active' | 'idle' | 'ended'`. -/
inductive SessionStatus where
  | active
  | idle
  | ended
deriving DecidableEq, Repr

/-- JavaScript `s || null` for strings: the empty string is coerced to NULL. -/
def orNullStr : Option String → Option String
  | some s => if s = "" then none else some s
  | none => none

/-- JavaScript `n || null` for non-negative numbers: 0 is coerced to NULL
(as in `event.duration_ms || null`). -/
def orNullNat : Option Nat → Option Nat
  | some n => if n = 0 then none else some n
  | none => none

/-- JavaScript `x || d` for an optional numeric parameter: `undefined` and
`0` both fall back to the default (as in `filters.limit || 50`). -/
def jsNumOr (o : Option Nat) (d : Nat) : Nat :=
  match o with
  | none => d
  | some n => if n = 0 then d else n

/-! ### Metadata JSON values and truncation (`truncateMetadata`) -/

/-- Untyped JSON metadata blob.  Numbers are restricted to integers: the
metadata payloads the ingest contract carries serialize integer-valued
numbers identically in JS and here. -/
inductive Json where
  | null
  | bool (b : Bool)
  | num (n : Int)
  | str (s : String)
  | arr (xs : List Json)
  | obj (fields : List (String × Json))

/-- UTF-8 byte length of a string, as `Buffer.byteLength(s, 'utf8')`. -/
def utf8Len (s : String) : Nat :=
  s.data.foldl (fun n c => n + c.utf8Size) 0

/-- JSON.stringify escape of one character inside a string literal. -/
def escapeChar (c : Char) : List Char :=
  if c = '"' then ['\\', '"']
  else if c = '\\' then ['\\', '\\']
  else if c = Char.ofNat 8 then ['\\', 'b']
  else if c = Char.ofNat 9 then ['\\', 't']
  else if c = Char.ofNat 10 then ['\\', 'n']
  else if c = Char.ofNat 12 then ['\\', 'f']
  else if c = Char.ofNat 13 then ['\\', 'r']
  else if c.toNat < 32 then
    ['\\', 'u', '0', '0',
      (Nat.digitChar (c.toNat / 16)), (Nat.digitChar (c.toNat % 16))]
  else [c]

/-- JSON.stringify body of a string literal. -/
def escapeString (s : String) : List Char :=
  s.data.foldr (fun c acc => escapeChar c ++ acc) []

mutual

/-- Canonical `JSON.stringify` serialization (no spacing). -/
def serialize : Json → String
  | .null => "null"
  | .bool true => "true"
  | .bool false => "false"
  | .num n => toString n
  | .str s => String.mk ('"' :: escapeString s ++ ['"'])
  | .arr xs => "[" ++ serializeList xs ++ "]"
  | .obj fs => "\x7b" ++ serializeFields fs ++ "\x7d"

def serializeList : List Json → String
  | [] => ""
  | [x] => serialize x
  | x :: xs => serialize x ++ "," ++ serializeList xs

def serializeFields : List (String × Json) → String
  | [] => ""
  | [(k, v)] => String.mk ('"' :: escapeString k ++ ['"', ':']) ++ serialize v
  | (k, v) :: fs =>
      String.mk ('"' :: escapeString k ++ ['"', ':']) ++ serialize v ++ ","
        ++ serializeFields fs

end

/-- `value ?? {}`: JS null (and undefined) coalesce to the empty object. -/
def jsOrEmptyObj : Json → Json
  | .null => .obj []
  | v => v

/-- `safeJsonStringify` from `src/db/queries.ts`.  On acyclic `Json` values
the circular-reference guard and the catch branch are unreachable, so this
is `JSON.stringify(value ?? {})`. -/
def safeJsonStringify (value : Json) : String :=
  serialize (jsOrEmptyObj value)

/-- The loop body of `utf8SliceByBytes`: keep consuming characters while the
running byte count stays within `maxBytes`; stop at the first overflow. -/
def sliceGo : List Char → Nat → Nat → List Char
  | [], _, _ => []
  | c :: rest, currentBytes, maxBytes =>
      if currentBytes + c.utf8Size > maxBytes then []
      else c :: sliceGo rest (currentBytes + c.utf8Size) maxBytes

/-- `utf8SliceByBytes` from `src/db/queries.ts`: the longest prefix whose
UTF-8 encoding fits in `maxBytes`, never splitting a character. -/
def utf8SliceByBytes (input : String) (maxBytes : Nat) : String :=
  if maxBytes ≤ 0 then "" else String.mk (sliceGo input.data 0 maxBytes)

/-- `METADATA_PRIORITY_KEYS` from `src/db/queries.ts`. -/
def METADATA_PRIORITY_KEYS : List String :=
  ["command", "file_path", "query", "pattern", "error", "message",
   "tool_name", "path", "type"]

/-- `buildTruncatedObjectSummary`: a summary object carrying the truncation
marker, the original byte count, and the priority keys present verbatim. -/
def buildTruncatedObjectSummary
    (metadata : List (String × Json)) (originalBytes : Nat) : String :=
  let priority := METADATA_PRIORITY_KEYS.filterMap fun k =>
    (metadata.find? (fun p => p.1 == k)).map fun p => (k, p.2)
  safeJsonStringify (.obj
    ([("_truncated", .bool true), ("_original_bytes", .num originalBytes)]
      ++ priority))

/-- `buildTruncatedGenericSummary`. -/
def buildTruncatedGenericSummary (originalBytes : Nat) : String :=
  safeJsonStringify (.obj
    [("_truncated", .bool true), ("_original_bytes", .num originalBytes)])

/-- `truncateMetadata` from `src/db/queries.ts` (the byte cap is
`config.maxPayloadKB * 1024`).  Returns the stored string and the
`truncated` flag. -/
def truncateMetadata (maxPayloadKB : Nat) (metadata : Json) : String × Bool :=
  let maxBytes := Nat.max 0 (maxPayloadKB * 1024)
  match metadata with
  | .str s =>
      if utf8Len s ≤ maxBytes then (s, false)
      else (utf8SliceByBytes s maxBytes, true)
  | m =>
      let serialized := safeJsonStringify m
      let byteLength := utf8Len serialized
      if byteLength ≤ maxBytes then (serialized, false)
      else
        let summary := match m with
          | .obj fields => buildTruncatedObjectSummary fields byteLength
          | _ => buildTruncatedGenericSummary byteLength
        if utf8Len summary ≤ maxBytes then (summary, true)
        else (utf8SliceByBytes summary maxBytes, true)

/-- The pre-truncation measurement the source actually applies: raw string
bytes for string metadata, canonical JSON serialization bytes otherwise. -/
def measuredBytes (metadata : Json) : Nat :=
  match metadata with
  | .str s => utf8Len s
  | m => utf8Len (safeJsonStringify m)

/-! ### Store rows and state -/

/-- A row of the `agents` table. -/
structure AgentRow where
  id : String
  agent_type : String
  name : Option String
  registered_at : Nat
  last_seen_at : Nat
deriving DecidableEq, Repr

/-- A row of the `sessions` table. -/
structure SessionRow where
  id : String
  agent_id : String
  agent_type : String
  project : Option String
  branch : Option String
  status : SessionStatus
  started_at : Nat
  ended_at : Option Nat
  last_event_at : Nat
  metadata : String
deriving DecidableEq, Repr

/-- A row of the `events` table. -/
structure EventRow where
  id : Nat
  event_id : Option String
  schema_version : Nat
  session_id : String
  agent_type : String
  event_type : EventType
  tool_name : Option String
  status : EventStatus
  tokens_in : Nat
  tokens_out : Nat
  branch : Option String
  project : Option String
  duration_ms : Option Nat
  created_at : Nat
  client_timestamp : Option String
  metadata : String
  payload_truncated : Nat
deriving DecidableEq, Repr

/-- The persistent store: the three tables owned by `src/db/schema.ts`. -/
structure Store where
  agents : List AgentRow
  sessions : List SessionRow
  events : List EventRow
deriving DecidableEq, Repr

def emptyStore : Store := ⟨[], [], []⟩

/-! ### Agent and session mutations (`src/db/queries.ts`) -/

/-- `upsertAgent`: INSERT, ON CONFLICT(id) refresh `last_seen_at`. -/
def upsertAgent (now : Nat) (id agentType : String) (name : Option String)
    (st : Store) : Store :=
  if st.agents.any (fun a => a.id == id) then
    { st with agents := st.agents.map fun a =>
        if a.id == id then { a with last_seen_at := now } else a }
  else
    { st with agents := st.agents ++
        [{ id := id, agent_type := agentType, name := orNullStr name,
           registered_at := now, last_seen_at := now }] }

/-- The DO UPDATE arm of `upsertSession`: refresh `last_event_at`, set
status to `'active'` unless it is `'ended'` (which is kept), and COALESCE
project/branch with the incoming values. -/
def refreshSession (now : Nat) (projectArg branchArg : Option String)
    (s : SessionRow) : SessionRow :=
  { s with
    last_event_at := now,
    status := if s.status = .ended then s.status else .active,
    project := match projectArg with
      | some p => some p
      | none => s.project,
    branch := match branchArg with
      | some b => some b
      | none => s.branch }

/-- `upsertSession`: INSERT, ON CONFLICT(id) apply `refreshSession`. -/
def upsertSession (now : Nat) (id agentId agentType : String)
    (project branch : Option String) (st : Store) : Store :=
  let projectArg := orNullStr project
  let branchArg := orNullStr branch
  if st.sessions.any (fun s => s.id == id) then
    { st with sessions := st.sessions.map fun s =>
        if s.id == id then refreshSession now projectArg branchArg s else s }
  else
    { st with sessions := st.sessions ++
        [{ id := id, agent_id := agentId, agent_type := agentType,
           project := projectArg, branch := branchArg,
           status := .active, started_at := now, ended_at := none,
           last_event_at := now, metadata := "\x7b\x7d" }] }

/-- The SET clause of `endSession`. -/
def endSessionRow (now : Nat) (s : SessionRow) : SessionRow :=
  { s with status := .ended, ended_at := some now }

/-- `endSession`: UPDATE the session to `'ended'` with `ended_at = now`. -/
def endSession (now : Nat) (sessionId : String) (st : Store) : Store :=
  { st with sessions := st.sessions.map fun s =>
      if s.id == sessionId then endSessionRow now s else s }

/-- The predicate of `updateIdleSessions`' WHERE clause: an active session
whose `last_event_at` is older than `timeoutMinutes` ago. -/
def isStaleActive (now timeoutMinutes : Nat) (s : SessionRow) : Bool :=
  s.status == .active && decide (s.last_event_at + timeoutMinutes < now)

/-- `updateIdleSessions`: one UPDATE marking stale active sessions `'idle'`;
returns the new store and the change count (`result.changes`). -/
def updateIdleSessions (now timeoutMinutes : Nat) (st : Store) :
    Store × Nat :=
  ({ st with sessions := st.sessions.map fun s =>
      if isStaleActive now timeoutMinutes s then { s with status := .idle }
      else s },
   st.sessions.countP (isStaleActive now timeoutMinutes))

/-- One tick of the session checker interval in `src/server.ts`: it calls
`updateIdleSessions(config.sessionTimeoutMinutes)` and reports the idled
count (the broadcast side channel carries no store mutation). -/
def sessionCheckerTick (now timeoutMinutes : Nat) (st : Store) :
    Store × Nat :=
  updateIdleSessions now timeoutMinutes st

/-! ### Event insertion (`insertEvent`) -/

/-- The argument record of `insertEvent`. -/
structure NewEvent where
  event_id : Option String := none
  session_id : String
  agent_type : String
  event_type : EventType
  tool_name : Option String := none
  status : EventStatus := .success
  tokens_in : Nat := 0
  tokens_out : Nat := 0
  branch : Option String := none
  project : Option String := none
  duration_ms : Option Nat := none
  metadata : Json := .null
  client_timestamp : Option String := none

/-- Outcome of `insertEvent`: a created row, `null` for a swallowed
duplicate `event_id`, or a rethrown SQL error (the `event_type` CHECK
constraint — its message is not a `UNIQUE constraint failed:
events.event_id` message, so the catch rethrows). -/
inductive InsertResult where
  | created (row : EventRow)
  | duplicate
  | checkViolation
deriving DecidableEq, Repr

/-- The statement sequence `insertEvent` runs before attempting the INSERT:
upsert the default agent, upsert the session, and end it on `session_end`.
Each statement autocommits; there is no surrounding transaction. -/
def lifecycleStep (now : Nat) (event : NewEvent) (st : Store) : Store :=
  let agentId := event.agent_type ++ "-default"
  let st := upsertAgent now agentId event.agent_type none st
  let st := upsertSession now event.session_id agentId event.agent_type
    event.project event.branch st
  if event.event_type = .session_end then
    endSession now event.session_id st
  else st

/-- Does some stored event already carry this (coerced) `event_id`?  This
is what makes the INSERT hit the UNIQUE constraint (NULL ids never
conflict). -/
def eventIdTaken (st : Store) (eid : Option String) : Bool :=
  match eid with
  | some e => st.events.any (fun r => r.event_id == some e)
  | none => false

/-- The VALUES tuple of the INSERT in `insertEvent`, with the JS `|| null`
coercions, the server-assigned `created_at`, the autoincrement id, and the
truncated metadata. -/
def newEventRow (now maxPayloadKB : Nat) (event : NewEvent) (st : Store) :
    EventRow :=
  let md := truncateMetadata maxPayloadKB event.metadata
  { id := st.events.length + 1, event_id := orNullStr event.event_id,
    schema_version := 1,
    session_id := event.session_id, agent_type := event.agent_type,
    event_type := event.event_type,
    tool_name := orNullStr event.tool_name, status := event.status,
    tokens_in := event.tokens_in, tokens_out := event.tokens_out,
    branch := orNullStr event.branch,
    project := orNullStr event.project,
    duration_ms := orNullNat event.duration_ms, created_at := now,
    client_timestamp := orNullStr event.client_timestamp,
    metadata := md.1,
    payload_truncated := if md.2 then 1 else 0 }

/-- `insertEvent` from `src/db/queries.ts`.  The lifecycle side effects run
before the INSERT is attempted, whatever its outcome; an `event_type`
outside the schema CHECK makes the INSERT throw, a taken `event_id` is
swallowed as a duplicate, otherwise the row is appended. -/
def insertEvent (now maxPayloadKB : Nat) (event : NewEvent) (st : Store) :
    Store × InsertResult :=
  let st := lifecycleStep now event st
  if !schemaAllowsEventType event.event_type then (st, .checkViolation)
  else if eventIdTaken st (orNullStr event.event_id) then (st, .duplicate)
  else
    ({ st with events := st.events ++ [newEventRow now maxPayloadKB event st] },
     .created (newEventRow now maxPayloadKB event st))

/-- Look a session up by primary key. -/
def findSession (st : Store) (id : String) : Option SessionRow :=
  st.sessions.find? (fun s => s.id == id)

/-- Look an agent up by primary key. -/
def findAgent (st : Store) (id : String) : Option AgentRow :=
  st.agents.find? (fun a => a.id == id)

/-- Number of event rows carrying a given external `event_id`. -/
def countEventId (e : String) (st : Store) : Nat :=
  st.events.countP (fun r => r.event_id == some e)

/-- Fold a sequence of `(now, payload)` ingest operations over the store. -/
def runIngest (maxPayloadKB : Nat) (ops : List (Nat × NewEvent))
    (st : Store) : Store :=
  ops.foldl (fun st op => (insertEvent op.1 maxPayloadKB op.2 st).1) st

/-! ### Event queries (`getEvents`) -/

/-- The filter record accepted by `getEvents`. -/
structure EventFilters where
  limit : Option Nat := none
  offset : Option Nat := none
  agentType : Option String := none
  eventType : Option String := none
  toolName : Option String := none
  sessionId : Option String := none
  branch : Option String := none
  since : Option Nat := none
  untilTs : Option Nat := none

/-- The WHERE clause assembled by `getEvents` (SQL `col = ?` on a NULL
column is not a match). -/
def eventMatches (f : EventFilters) (e : EventRow) : Bool :=
  (match f.agentType with | none => true | some a => e.agent_type == a) &&
  (match f.eventType with
    | none => true
    | some t => eventTypeStr e.event_type == t) &&
  (match f.toolName with | none => true | some t => e.tool_name == some t) &&
  (match f.sessionId with | none => true | some s => e.session_id == s) &&
  (match f.branch with | none => true | some b => e.branch == some b) &&
  (match f.since with
    | none => true
    | some s => decide (s ≤ e.created_at)) &&
  (match f.untilTs with
    | none => true
    | some u => decide (e.created_at ≤ u))

/-- Insert one event into a list kept in `created_at DESC` order. -/
def insertByCreatedAtDesc (e : EventRow) : List EventRow → List EventRow
  | [] => [e]
  | x :: xs =>
      if e.created_at ≥ x.created_at then e :: x :: xs
      else x :: insertByCreatedAtDesc e xs

/-- `ORDER BY created_at DESC`. -/
def sortByCreatedAtDesc (l : List EventRow) : List EventRow :=
  l.foldr insertByCreatedAtDesc []

/-- `getEvents` from `src/db/queries.ts`: filter, count, order by
`created_at DESC`, then `LIMIT ? OFFSET ?` with
`const limit = filters.limit || 50` and `const offset = filters.offset || 0`.
Returns the page and the total count of matching rows. -/
def getEvents (f : EventFilters) (st : Store) : List EventRow × Nat :=
  let filtered := st.events.filter (eventMatches f)
  let limit := jsNumOr f.limit 50
  let offset := jsNumOr f.offset 0
  (((sortByCreatedAtDesc filtered).drop offset).take limit, filtered.length)

/-! ### Session listing (`getSessions`) -/

/-- The filter record accepted by `getSessions`. -/
structure SessionFilters where
  status : Option String := none
  agentType : Option String := none
  limit : Option Nat := none

/-- Status string of a session row as stored. -/
def sessionStatusStr : SessionStatus → String
  | .active => "active"
  | .idle => "idle"
  | .ended => "ended"

/-- WHERE clause of `getSessions`. -/
def sessionMatches (f : SessionFilters) (s : SessionRow) : Bool :=
  (match f.status with
    | none => true
    | some st => sessionStatusStr s.status == st) &&
  (match f.agentType with | none => true | some a => s.agent_type == a)

/-- `CASE s.status WHEN 'active' THEN 0 WHEN 'idle' THEN 1 ELSE 2 END`. -/
def sessionStatusOrder : SessionStatus → Nat
  | .active => 0
  | .idle => 1
  | .ended => 2

/-- Does `a` sort before (or tie with) `b` under
`ORDER BY status-case, last_event_at DESC`? -/
def sessionBefore (a b : SessionRow) : Bool :=
  decide (sessionStatusOrder a.status < sessionStatusOrder b.status) ||
  (sessionStatusOrder a.status == sessionStatusOrder b.status &&
    decide (a.last_event_at ≥ b.last_event_at))

/-- Insert one session into a list kept in `sessionBefore` order. -/
def insertSessionOrdered (s : SessionRow) :
    List SessionRow → List SessionRow
  | [] => [s]
  | x :: xs =>
      if sessionBefore s x then s :: x :: xs
      else x :: insertSessionOrdered s xs

/-- The ORDER BY of `getSessions`. -/
def sortSessions (l : List SessionRow) : List SessionRow :=
  l.foldr insertSessionOrdered []

/-- The three correlated subqueries `getSessions` attaches to each row:
event count and token sums over the session's events. -/
def sessionAggregates (st : Store) (sid : String) : Nat × Nat × Nat :=
  let es := st.events.filter (fun e => e.session_id == sid)
  (es.length, (es.map (fun e => e.tokens_in)).sum,
    (es.map (fun e => e.tokens_out)).sum)

/-- `getSessions` from `src/db/queries.ts`: filter, order, then `LIMIT ?`
with `const limit = filters.limit || 50`.  Each returned row carries the
three aggregate columns. -/
def getSessions (f : SessionFilters) (st : Store) :
    List (SessionRow × Nat × Nat × Nat) :=
  let filtered := st.sessions.filter (sessionMatches f)
  let limit := jsNumOr f.limit 50
  ((sortSessions filtered).take limit).map fun s =>
    (s, sessionAggregates st s.id)

/-! ### Stats projection (`getStats`) -/

/-- The filter record accepted by `getStats`. -/
structure StatsFilters where
  agentType : Option String := none
  since : Option Nat := none

/-- The WHERE clause assembled by `getStats` (applied to the events
totals and breakdown queries only). -/
def statsMatches (f : StatsFilters) (e : EventRow) : Bool :=
  (match f.agentType with | none => true | some a => e.agent_type == a) &&
  (match f.since with | none => true | some s => decide (s ≤ e.created_at))

/-- Insert one session into a list kept in `last_event_at DESC` order. -/
def insertByLastEventDesc (s : SessionRow) :
    List SessionRow → List SessionRow
  | [] => [s]
  | x :: xs =>
      if s.last_event_at ≥ x.last_event_at then s :: x :: xs
      else x :: insertByLastEventDesc s xs

/-- `SELECT DISTINCT branch FROM sessions WHERE branch IS NOT NULL ORDER BY
last_event_at DESC`. -/
def branchesOf (st : Store) : List String :=
  ((st.sessions.foldr insertByLastEventDesc []).filterMap
    (fun s => s.branch)).dedup

/-- The result shape of `getStats`.  The breakdown `Record<string, number>`
objects are modelled as count functions (JS object key order carries no
semantics). -/
structure Stats where
  total_events : Nat
  active_sessions : Nat
  total_sessions : Nat
  total_tokens_in : Nat
  total_tokens_out : Nat
  tool_breakdown : String → Nat
  agent_breakdown : String → Nat
  branches : List String

/-- `getStats` from `src/db/queries.ts`.  The events totals and the tool
and agent breakdowns apply the filters; the `active_sessions` and
`total_sessions` counters are computed by unfiltered queries over the
`sessions` table. -/
def getStats (f : StatsFilters) (st : Store) : Stats :=
  let filtered := st.events.filter (statsMatches f)
  { total_events := filtered.length,
    active_sessions :=
      (st.sessions.filter (fun s => s.status == .active)).length,
    total_sessions := st.sessions.length,
    total_tokens_in := (filtered.map (fun e => e.tokens_in)).sum,
    total_tokens_out := (filtered.map (fun e => e.tokens_out)).sum,
    tool_breakdown := fun name =>
      (filtered.filter (fun e => e.tool_name == some name)).length,
    agent_breakdown := fun a =>
      (filtered.filter (fun e => e.agent_type == a)).length,
    branches := branchesOf st }

/-! ### SSE broadcast registry (`src/sse/emitter.ts`) -/

/-- A registered SSE subscriber with its optional per-client filters. -/
structure SSEClient where
  clientId : Nat
  agentType : Option String := none
  eventType : Option String := none
deriving DecidableEq, Repr

/-- The broadcaster's private client registry (`clients = new Set()`). -/
structure SSEBroadcaster where
  clients : List SSEClient
deriving DecidableEq, Repr

def SSEBroadcaster.empty : SSEBroadcaster := ⟨[]⟩

/-- `SSEBroadcaster.addClient`: writes the 200 `text/event-stream` head and
the `connected` frame, then registers the client.  The method has no
capacity check and no rejection path; it always returns having added the
client and responded 200. -/
def SSEBroadcaster.addClient (b : SSEBroadcaster) (c : SSEClient) :
    SSEBroadcaster × Nat :=
  (⟨b.clients ++ [c]⟩, 200)

/-- `clientCount` getter. -/
def SSEBroadcaster.clientCount (b : SSEBroadcaster) : Nat :=
  b.clients.length

/-- The `res.on('close')` handler: remove the client from the registry. -/
def SSEBroadcaster.removeClient (b : SSEBroadcaster) (c : SSEClient) :
    SSEBroadcaster :=
  ⟨b.clients.filter (fun x => x ≠ c)⟩

/-- Did `insertEvent` persist a new row? -/
def InsertResult.isCreated : InsertResult → Bool
  | .created _ => true
  | _ => false

/-! ### Concrete fixtures used by the claim theorems -/

/-- The payload of the repository's duplicate-ingest test. -/
def dupEvent : NewEvent :=
  { event_id := some "evt-duplicate-no-refresh",
    session_id := "session-dup-no-refresh", agent_type := "codex",
    event_type := .tool_use, tool_name := some "Read" }

/-- Store after the first ingest of `dupEvent` at time 3. -/
def dupStore1 : Store := (insertEvent 3 10 dupEvent emptyStore).1

/-- `dupStore1` after the test's direct UPDATE: the session is made idle
with an old `last_event_at` and no `ended_at`. -/
def dupStore2 : Store :=
  { dupStore1 with sessions := dupStore1.sessions.map fun s =>
      { s with status := .idle, last_event_at := 0, ended_at := none } }

/-- A minimal payload of a given event type. -/
def evOf (t : EventType) : NewEvent :=
  { session_id := "s-1", agent_type := "claude_code", event_type := t }

/-- An already-ended session row. -/
def endedSession : SessionRow :=
  { id := "s-9", agent_id := "codex-default", agent_type := "codex",
    project := none, branch := none, status := .ended, started_at := 0,
    ended_at := some 2, last_event_at := 2, metadata := "\x7b\x7d" }

/-- A store holding one already-ended session. -/
def endedStore : Store := ⟨[], [endedSession], []⟩

/-- A live (non-import) event addressed to the ended session `s-9`. -/
def liveEventS9 : NewEvent :=
  { session_id := "s-9", agent_type := "codex", event_type := .tool_use,
    tool_name := some "Read" }

/-- An idle session whose `last_event_at` is far older than twice the idle
threshold used in the sweeper fixtures. -/
def staleIdleSession : SessionRow :=
  { id := "s-idle", agent_id := "codex-default", agent_type := "codex",
    project := none, branch := none, status := .idle, started_at := 0,
    ended_at := none, last_event_at := 0, metadata := "\x7b\x7d" }

/-- A store holding only `staleIdleSession`. -/
def staleIdleStore : Store := ⟨[], [staleIdleSession], []⟩

/-- `i`-th event row of the 51-row paging fixture. -/
def pageEvent (i : Nat) : EventRow :=
  { id := i + 1, event_id := none, schema_version := 1, session_id := "s",
    agent_type := "a", event_type := .tool_use, tool_name := none,
    status := .success, tokens_in := 0, tokens_out := 0, branch := none,
    project := none, duration_ms := none, created_at := i,
    client_timestamp := none, metadata := "\x7b\x7d",
    payload_truncated := 0 }

/-- A store with 51 events, all matching an unfiltered query. -/
def pageEventStore : Store := ⟨[], [], (List.range 51).map pageEvent⟩

/-- `i`-th session row of the 51-row paging fixture. -/
def pageSession (i : Nat) : SessionRow :=
  { id := "s" ++ toString i, agent_id := "a-default", agent_type := "a",
    project := none, branch := none, status := .active, started_at := i,
    ended_at := none, last_event_at := i, metadata := "\x7b\x7d" }

/-- A store with 51 sessions, all matching an unfiltered listing. -/
def pageSessionStore : Store := ⟨[], (List.range 51).map pageSession, []⟩

/-- An active session row for the stats fixture. -/
def statsDemoSession : SessionRow :=
  { id := "s-1", agent_id := "codex-default", agent_type := "codex",
    project := none, branch := none, status := .active, started_at := 0,
    ended_at := none, last_event_at := 1, metadata := "\x7b\x7d" }

/-- A codex-tagged event row for the stats fixture. -/
def statsDemoEvent : EventRow := { pageEvent 1 with agent_type := "codex" }

/-- Two-event, one-session store on which the stats filters visibly
restrict `total_events`. -/
def statsDemoStore : Store :=
  ⟨[], [statsDemoSession], [pageEvent 0, statsDemoEvent]⟩

/-- 1024 ASCII characters: its raw UTF-8 size (1024) fits a 1 KiB cap
exactly, while its canonical JSON serialization (quotes included) is 1026
bytes. -/
def bigString : String := String.mk (List.replicate 1024 'a')

/-- A payload with small string metadata, for the truncation witness. -/
def tinyMetaEvent : NewEvent :=
  { session_id := "s-1", agent_type := "claude_code",
    event_type := .tool_use, metadata := .str "hi" }

/-- The row `insertEvent 0 1 tinyMetaEvent emptyStore` creates. -/
def tinyMetaRow : EventRow :=
  { id := 1, event_id := none, schema_version := 1, session_id := "s-1",
    agent_type := "claude_code", event_type := .tool_use, tool_name := none,
    status := .success, tokens_in := 0, tokens_out := 0, branch := none,
    project := none, duration_ms := none, created_at := 0,
    client_timestamp := none, metadata := "hi", payload_truncated := 0 }

/-! ### Supporting lemmas -/

theorem upsertAgent_events (now : Nat) (id t : String) (n : Option String)
    (st : Store) : (upsertAgent now id t n st).events = st.events := by
  unfold upsertAgent
  split <;> rfl

theorem upsertSession_events (now : Nat) (id aid t : String)
    (p b : Option String) (st : Store) :
    (upsertSession now id aid t p b st).events = st.events := by
  unfold upsertSession
  split <;> rfl

theorem endSession_events (now : Nat) (id : String) (st : Store) :
    (endSession now id st).events = st.events := rfl

theorem lifecycleStep_events (now : Nat) (ev : NewEvent) (st : Store) :
    (lifecycleStep now ev st).events = st.events := by
  unfold lifecycleStep
  split <;> simp [endSession_events, upsertSession_events, upsertAgent_events]

theorem upsertAgent_sessions (now : Nat) (id t : String) (n : Option String)
    (st : Store) : (upsertAgent now id t n st).sessions = st.sessions := by
  unfold upsertAgent
  split <;> rfl

/-- `insertEvent` never touches the sessions table after the lifecycle
statements: whatever the INSERT outcome, the resulting sessions are those
of `lifecycleStep`. -/
theorem insertEvent_sessions (now kb : Nat) (ev : NewEvent) (st : Store) :
    (insertEvent now kb ev st).1.sessions =
      (lifecycleStep now ev st).sessions := by
  simp only [insertEvent]
  split
  · rfl
  · split <;> rfl

theorem find?_cons_true {p : SessionRow → Bool} {y : SessionRow}
    {ys : List SessionRow} (h : p y = true) :
    List.find? p (y :: ys) = some y := by
  simp [List.find?, h]

theorem find?_cons_false {p : SessionRow → Bool} {y : SessionRow}
    {ys : List SessionRow} (h : p y = false) :
    List.find? p (y :: ys) = List.find? p ys := by
  simp [List.find?, h]

/-- `find?` over a keyed in-place update finds the updated row. -/
theorem find?_map_update (id : String) (f : SessionRow → SessionRow)
    (hf : ∀ x, (f x).id = x.id) :
    ∀ (l : List SessionRow) (s : SessionRow),
      l.find? (fun x => x.id == id) = some s →
      (l.map fun x => if x.id == id then f x else x).find?
        (fun x => x.id == id) = some (f s) := by
  intro l
  induction l with
  | nil => intro s h; simp at h
  | cons y ys ih =>
    intro s h
    cases hy : (y.id == id) with
    | true =>
      rw [find?_cons_true hy] at h
      injection h with h'
      subst h'
      simp only [List.map_cons, hy, if_true]
      exact find?_cons_true (show ((f y).id == id) = true by rw [hf y]; exact hy)
    | false =>
      rw [find?_cons_false hy] at h
      simp only [List.map_cons, hy, Bool.false_eq_true, if_false]
      rw [find?_cons_false hy]
      exact ih s h

/-- An event row is appended with the coerced `event_id` exactly when the
schema admits the type and no row already carries that `event_id`. -/
theorem insertEvent_events_created (now kb : Nat) (ev : NewEvent)
    (st : Store) (row : EventRow)
    (h : (insertEvent now kb ev st).2 = .created row) :
    (insertEvent now kb ev st).1.events = st.events ++ [row] ∧
    row.event_id = orNullStr ev.event_id ∧
    row.metadata = (truncateMetadata kb ev.metadata).1 ∧
    row.payload_truncated =
      (if (truncateMetadata kb ev.metadata).2 then 1 else 0) := by
  cases hb : schemaAllowsEventType ev.event_type with
  | false => simp [insertEvent, hb] at h
  | true =>
    cases hc : eventIdTaken (lifecycleStep now ev st) (orNullStr ev.event_id) with
    | true => simp [insertEvent, hb, hc] at h
    | false =>
      simp only [insertEvent, hb, Bool.not_true, Bool.false_eq_true,
        if_false, hc, InsertResult.created.injEq] at h
      subst h
      refine ⟨?_, rfl, rfl, rfl⟩
      simp [insertEvent, hb, hc, newEventRow, lifecycleStep_events]

theorem findSession_insertEvent (now kb : Nat) (ev : NewEvent) (st : Store)
    (id : String) :
    findSession (insertEvent now kb ev st).1 id =
      findSession (lifecycleStep now ev st) id := by
  unfold findSession
  rw [insertEvent_sessions]

theorem findSession_upsertAgent (now : Nat) (aid t : String)
    (n : Option String) (st : Store) (id : String) :
    findSession (upsertAgent now aid t n st) id = findSession st id := by
  unfold findSession
  rw [upsertAgent_sessions]

/-- When the session exists, `upsertSession` hits the DO UPDATE arm and the
looked-up row is the refreshed one. -/
theorem findSession_upsertSession_hit (now : Nat) (id aid t : String)
    (p b : Option String) (st : Store) (s : SessionRow)
    (hfind : findSession st id = some s) :
    findSession (upsertSession now id aid t p b st) id =
      some (refreshSession now (orNullStr p) (orNullStr b) s) := by
  have hmem := List.mem_of_find?_eq_some hfind
  have hpred := List.find?_some hfind
  have hany : (st.sessions.any fun x => x.id == id) = true :=
    List.any_eq_true.mpr ⟨s, hmem, hpred⟩
  unfold findSession at hfind ⊢
  simp only [upsertSession, hany, if_true]
  exact find?_map_update id (refreshSession now (orNullStr p) (orNullStr b))
    (fun x => rfl) st.sessions s hfind

theorem findSession_endSession (now : Nat) (id : String) (st : Store)
    (s : SessionRow) (hfind : findSession st id = some s) :
    findSession (endSession now id st) id = some (endSessionRow now s) := by
  unfold findSession at hfind ⊢
  simp only [endSession]
  exact find?_map_update id (endSessionRow now) (fun x => rfl)
    st.sessions s hfind

/-! Branch characterizations of `insertEvent`. -/

theorem insertEvent_check (now kb : Nat) (ev : NewEvent) (st : Store)
    (hb : schemaAllowsEventType ev.event_type = false) :
    insertEvent now kb ev st = (lifecycleStep now ev st, .checkViolation) := by
  simp [insertEvent, hb]

theorem insertEvent_dup (now kb : Nat) (ev : NewEvent) (st : Store)
    (hb : schemaAllowsEventType ev.event_type = true)
    (hc : eventIdTaken (lifecycleStep now ev st) (orNullStr ev.event_id)
      = true) :
    insertEvent now kb ev st = (lifecycleStep now ev st, .duplicate) := by
  simp [insertEvent, hb, hc]

theorem insertEvent_new (now kb : Nat) (ev : NewEvent) (st : Store)
    (hb : schemaAllowsEventType ev.event_type = true)
    (hc : eventIdTaken (lifecycleStep now ev st) (orNullStr ev.event_id)
      = false) :
    insertEvent now kb ev st =
      ({ lifecycleStep now ev st with
          events := (lifecycleStep now ev st).events
            ++ [newEventRow now kb ev (lifecycleStep now ev st)] },
       .created (newEventRow now kb ev (lifecycleStep now ev st))) := by
  simp [insertEvent, hb, hc]

theorem eventIdTaken_lifecycleStep (now : Nat) (ev : NewEvent) (st : Store)
    (eid : Option String) :
    eventIdTaken (lifecycleStep now ev st) eid = eventIdTaken st eid := by
  unfold eventIdTaken
  cases eid <;> simp [lifecycleStep_events]

theorem countEventId_lifecycleStep (now : Nat) (ev : NewEvent) (st : Store)
    (e : String) :
    countEventId e (lifecycleStep now ev st) = countEventId e st := by
  unfold countEventId
  rw [lifecycleStep_events]

/-- The UNIQUE-constraint probe agrees with the row count. -/
theorem eventIdTaken_iff_pos (st : Store) (e : String) :
    eventIdTaken st (some e) = true ↔ 0 < countEventId e st := by
  unfold eventIdTaken countEventId
  rw [List.countP_pos_iff, List.any_eq_true]

/-- Inserting any payload preserves an exactly-one count for `e`. -/
theorem countEventId_step_pres_one (now kb : Nat) (ev : NewEvent)
    (st : Store) (e : String) (h1 : countEventId e st = 1) :
    countEventId e (insertEvent now kb ev st).1 = 1 := by
  cases hb : schemaAllowsEventType ev.event_type with
  | false =>
    rw [insertEvent_check now kb ev st hb]
    rw [countEventId_lifecycleStep]
    exact h1
  | true =>
    cases hc : eventIdTaken (lifecycleStep now ev st) (orNullStr ev.event_id) with
    | true =>
      rw [insertEvent_dup now kb ev st hb hc]
      rw [countEventId_lifecycleStep]
      exact h1
    | false =>
      rw [insertEvent_new now kb ev st hb hc]
      rw [eventIdTaken_lifecycleStep] at hc
      have hrow : ((newEventRow now kb ev (lifecycleStep now ev st)).event_id
          == some e) = false := by
        cases heid : orNullStr ev.event_id with
        | none => simp [newEventRow, heid]
        | some e2 =>
          by_cases he2 : e2 = e
          · subst he2
            rw [heid] at hc
            rw [show (eventIdTaken st (some e2) = false) ↔
                ¬ (eventIdTaken st (some e2) = true) by simp] at hc
            rw [eventIdTaken_iff_pos] at hc
            omega
          · simp [newEventRow, heid, he2]
      unfold countEventId at h1 ⊢
      simp only [List.countP_append, lifecycleStep_events]
      simp [List.countP_cons, hrow, h1]

/-- Inserting a payload that carries `e` into a store with no `e` row
yields exactly one `e` row. -/
theorem countEventId_step_create (now kb : Nat) (ev : NewEvent)
    (st : Store) (e : String) (h0 : countEventId e st = 0)
    (hb : schemaAllowsEventType ev.event_type = true)
    (he : orNullStr ev.event_id = some e) :
    countEventId e (insertEvent now kb ev st).1 = 1 := by
  have hc : eventIdTaken (lifecycleStep now ev st) (orNullStr ev.event_id)
      = false := by
    rw [eventIdTaken_lifecycleStep, he]
    rw [show (eventIdTaken st (some e) = false) ↔
        ¬ (eventIdTaken st (some e) = true) by simp]
    rw [eventIdTaken_iff_pos]
    omega
  rw [insertEvent_new now kb ev st hb hc]
  have hrow : ((newEventRow now kb ev (lifecycleStep now ev st)).event_id
      == some e) = true := by
    simp [newEventRow, he]
  unfold countEventId at h0 ⊢
  simp only [List.countP_append, lifecycleStep_events]
  simp [List.countP_cons, hrow, h0]

/-- Inserting a payload that does not carry `e` keeps the `e` count at 0. -/
theorem countEventId_step_keep_zero (now kb : Nat) (ev : NewEvent)
    (st : Store) (e : String) (h0 : countEventId e st = 0)
    (hne : orNullStr ev.event_id ≠ some e) :
    countEventId e (insertEvent now kb ev st).1 = 0 := by
  cases hb : schemaAllowsEventType ev.event_type with
  | false =>
    rw [insertEvent_check now kb ev st hb]
    rw [countEventId_lifecycleStep]
    exact h0
  | true =>
    cases hc : eventIdTaken (lifecycleStep now ev st) (orNullStr ev.event_id) with
    | true =>
      rw [insertEvent_dup now kb ev st hb hc]
      rw [countEventId_lifecycleStep]
      exact h0
    | false =>
      rw [insertEvent_new now kb ev st hb hc]
      have hrow : ((newEventRow now kb ev (lifecycleStep now ev st)).event_id
          == some e) = false := by
        cases heid : orNullStr ev.event_id with
        | none => simp [newEventRow, heid]
        | some e2 =>
          have hne2 : e2 ≠ e := fun h => hne (by rw [heid, h])
          simp [newEventRow, heid, hne2]
      unfold countEventId at h0 ⊢
      simp only [List.countP_append, lifecycleStep_events]
      simp [List.countP_cons, hrow, h0]

theorem runIngest_cons (kb : Nat) (op : Nat × NewEvent)
    (ops : List (Nat × NewEvent)) (st : Store) :
    runIngest kb (op :: ops) st =
      runIngest kb ops (insertEvent op.1 kb op.2 st).1 := rfl

/-- An exactly-one count survives any further ingest sequence. -/
theorem runIngest_pres_one (kb : Nat) (e : String) :
    ∀ (ops : List (Nat × NewEvent)) (st : Store),
      countEventId e st = 1 → countEventId e (runIngest kb ops st) = 1 := by
  intro ops
  induction ops with
  | nil => intro st h; exact h
  | cons op rest ih =>
    intro st h
    rw [runIngest_cons]
    exact ih _ (countEventId_step_pres_one op.1 kb op.2 st e h)

/-- From an `e`-free store, a sequence of schema-valid ingests one of which
carries `event_id = e` ends with exactly one `e` row. -/
theorem runIngest_reaches_one (kb : Nat) (e : String) :
    ∀ (ops : List (Nat × NewEvent)) (st : Store),
      countEventId e st = 0 →
      (∀ op ∈ ops, schemaAllowsEventType op.2.event_type = true) →
      (∃ op ∈ ops, orNullStr op.2.event_id = some e) →
      countEventId e (runIngest kb ops st) = 1 := by
  intro ops
  induction ops with
  | nil =>
    intro st _ _ hcarry
    obtain ⟨op, hmem, _⟩ := hcarry
    exact absurd hmem (List.not_mem_nil op)
  | cons op rest ih =>
    intro st h0 hallow hcarry
    rw [runIngest_cons]
    by_cases hop : orNullStr op.2.event_id = some e
    · exact runIngest_pres_one kb e rest _
        (countEventId_step_create op.1 kb op.2 st e h0
          (hallow op (List.mem_cons_self op rest)) hop)
    · obtain ⟨op2, hmem2, hcar2⟩ := hcarry
      rcases List.mem_cons.mp hmem2 with heq | htail
      · exact absurd (heq ▸ hcar2) hop
      · exact ih _ (countEventId_step_keep_zero op.1 kb op.2 st e h0 hop)
          (fun o ho => hallow o (List.mem_cons_of_mem op ho))
          ⟨op2, htail, hcar2⟩

/-! Byte-length lemmas for the truncation cap. -/

def charBytes (l : List Char) : Nat :=
  l.foldl (fun n c => n + c.utf8Size) 0

theorem charBytes_foldl (l : List Char) :
    ∀ n : Nat, l.foldl (fun n c => n + c.utf8Size) n = n + charBytes l := by
  induction l with
  | nil => intro n; simp [charBytes]
  | cons c cs ih =>
    intro n
    simp only [List.foldl_cons, charBytes]
    rw [ih, ih (0 + c.utf8Size)]
    omega

theorem charBytes_cons (c : Char) (l : List Char) :
    charBytes (c :: l) = c.utf8Size + charBytes l := by
  show List.foldl (fun n c => n + c.utf8Size) 0 (c :: l) = _
  rw [List.foldl_cons, charBytes_foldl]
  omega

theorem sliceGo_le : ∀ (l : List Char) (cur maxB : Nat), cur ≤ maxB →
    cur + charBytes (sliceGo l cur maxB) ≤ maxB := by
  intro l
  induction l with
  | nil => intro cur maxB h; simpa [sliceGo, charBytes] using h
  | cons c cs ih =>
    intro cur maxB h
    by_cases hc : cur + c.utf8Size > maxB
    · simpa [sliceGo, hc, charBytes] using h
    · simp only [sliceGo, if_neg hc]
      rw [charBytes_cons]
      have h2 := ih (cur + c.utf8Size) maxB (by omega)
      omega

theorem utf8Len_mk (l : List Char) : utf8Len (String.mk l) = charBytes l :=
  rfl

/-- The byte-safe slice never exceeds its budget. -/
theorem utf8SliceByBytes_le (s : String) (maxB : Nat) :
    utf8Len (utf8SliceByBytes s maxB) ≤ maxB := by
  unfold utf8SliceByBytes
  split
  · have h0 : utf8Len "" = 0 := rfl
    omega
  · have hs := sliceGo_le s.data 0 maxB (Nat.zero_le maxB)
    rw [utf8Len_mk]
    omega

/-- What `truncateMetadata` guarantees: the stored string fits the cap, and
the flag is set exactly when the measured pre-truncation size exceeds it. -/
theorem truncateMetadata_spec (kb : Nat) (m : Json) :
    utf8Len (truncateMetadata kb m).1 ≤ kb * 1024 ∧
    ((truncateMetadata kb m).2 = true ↔ kb * 1024 < measuredBytes m) := by
  have hmax : Nat.max 0 (kb * 1024) = kb * 1024 :=
    Nat.max_eq_right (Nat.zero_le _)
  cases m
  case str s =>
    simp only [truncateMetadata, measuredBytes, hmax]
    split_ifs with h1
    · exact ⟨by simpa using h1, iff_of_false (by simp) (by omega)⟩
    · exact ⟨by simpa using utf8SliceByBytes_le s (kb * 1024),
        iff_of_true rfl (by omega)⟩
  all_goals
    (simp only [truncateMetadata, measuredBytes, hmax]
     split_ifs with h1 h2 <;>
       first
         | exact ⟨by simpa using h1, iff_of_false (by simp) (by omega)⟩
         | exact ⟨by simpa using h2, iff_of_true rfl (by omega)⟩
         | exact ⟨by simpa using utf8SliceByBytes_le _ (kb * 1024),
             iff_of_true rfl (by omega)⟩)

/-- Claim C1.  Re-ingesting the payload whose `event_id` is already
persisted is classified DUPLICATE and adds no event row, but the store is
not left identical: `insertEvent` runs `upsertAgent` and `upsertSession`
before the INSERT hits the UNIQUE constraint, so the session's
`last_event_at` advances to the ingest time (5), its status flips from
idle back to active, and the agent's `last_seen_at` advances — exactly the
refresh the repository's own duplicate-ingest test forbids. -/
theorem c1_duplicate_ingest_mutates_session :
    (insertEvent 5 10 dupEvent dupStore2).2 = .duplicate ∧
    (insertEvent 5 10 dupEvent dupStore2).1.events = dupStore2.events ∧
    ((findSession dupStore2 "session-dup-no-refresh").map fun s =>
      (s.status, s.last_event_at)) = some (.idle, 0) ∧
    ((findSession (insertEvent 5 10 dupEvent dupStore2).1
        "session-dup-no-refresh").map fun s =>
      (s.status, s.last_event_at)) = some (.active, 5) ∧
    ((findAgent (insertEvent 5 10 dupEvent dupStore2).1
        "codex-default").map fun a => a.last_seen_at) = some 5 := by
  decide

/-- Claim C2.  Ingesting a live `session_end` for an active session does
not leave it idle with `ended_at` unset: `insertEvent` calls `endSession`,
which sets the status to `ended` and stamps `ended_at` at ingest time. -/
theorem c2_session_end_sets_ended :
    (insertEvent 1 10 (evOf .session_end)
        (insertEvent 0 10 (evOf .session_start) emptyStore).1).2.isCreated
      = true ∧
    ((findSession (insertEvent 1 10 (evOf .session_end)
        (insertEvent 0 10 (evOf .session_start) emptyStore).1).1
        "s-1").map fun s => (s.status, s.ended_at))
      = some (.ended, some 1) := by
  decide

/-- Claim C3, counterexample.  A live event ingested for the ended session
`s-9` does not resurrect it: `upsertSession`'s
`CASE WHEN status = 'ended' THEN status ELSE 'active' END` keeps the
status `ended` (while still refreshing `last_event_at`). -/
theorem c3_resurrection_counterexample :
    ((findSession (insertEvent 7 10 liveEventS9 endedStore).1 "s-9").map
      fun s => s.status) = some .ended ∧
    ((findSession (insertEvent 7 10 liveEventS9 endedStore).1 "s-9").map
      fun s => s.status) ≠ some .active ∧
    ((findSession (insertEvent 7 10 liveEventS9 endedStore).1 "s-9").map
      fun s => s.last_event_at) = some 7 := by
  decide

/-- Claim C4, counterexample.  A sweeper tick over an idle session whose
`last_event_at` (0) is older than twice the idle threshold (now = 100,
threshold 5 minutes) leaves it idle with `ended_at` unset and reports 0
changes: the session checker only runs the active-to-idle UPDATE and never
transitions idle sessions to ended. -/
theorem c4_sweeper_counterexample :
    ((findSession (sessionCheckerTick 100 5 staleIdleStore).1 "s-idle").map
      fun s => (s.status, s.ended_at)) = some (.idle, none) ∧
    (sessionCheckerTick 100 5 staleIdleStore).2 = 0 ∧
    staleIdleSession.last_event_at + 2 * 5 < 100 := by
  decide

/-- Claim C7.  The schema's CHECK constraint admits only five event types,
so six members of the contract enumeration make the INSERT throw
(`checkViolation`, persisting nothing) while the five schema types are
persisted — contradicting the claim that every enumerated type is
accepted (the repository's own tests ingest `llm_response` expecting
success). -/
theorem c7_schema_rejects_contract_event_types :
    ((insertEvent 0 10 (evOf .user_prompt) emptyStore).2 = .checkViolation ∧
     (insertEvent 0 10 (evOf .llm_request) emptyStore).2 = .checkViolation ∧
     (insertEvent 0 10 (evOf .llm_response) emptyStore).2 = .checkViolation ∧
     (insertEvent 0 10 (evOf .plan_step) emptyStore).2 = .checkViolation ∧
     (insertEvent 0 10 (evOf .file_change) emptyStore).2 = .checkViolation ∧
     (insertEvent 0 10 (evOf .git_commit) emptyStore).2 = .checkViolation) ∧
    ((insertEvent 0 10 (evOf .user_prompt) emptyStore).1.events = []) ∧
    ((insertEvent 0 10 (evOf .tool_use) emptyStore).2.isCreated = true ∧
     (insertEvent 0 10 (evOf .session_start) emptyStore).2.isCreated = true ∧
     (insertEvent 0 10 (evOf .session_end) emptyStore).2.isCreated = true ∧
     (insertEvent 0 10 (evOf .response) emptyStore).2.isCreated = true ∧
     (insertEvent 0 10 (evOf .error) emptyStore).2.isCreated = true) := by
  decide

/-- Claim C8.  With the configured client limit at 1 (the repository
test's setting), registering a second subscriber is not rejected:
`addClient` has no capacity check, answers 200 both times, and grows the
registry to 2 clients — there is no 503 path. -/
theorem c8_sse_registry_unbounded :
    (SSEBroadcaster.empty.addClient ⟨1, none, none⟩).2 = 200 ∧
    ((SSEBroadcaster.empty.addClient ⟨1, none, none⟩).1.addClient
      ⟨2, none, none⟩).2 = 200 ∧
    ((SSEBroadcaster.empty.addClient ⟨1, none, none⟩).1.addClient
      ⟨2, none, none⟩).1.clientCount = 2 ∧
    1 < ((SSEBroadcaster.empty.addClient ⟨1, none, none⟩).1.addClient
      ⟨2, none, none⟩).1.clientCount := by
  decide

/-- Claim C9.  An absent limit defaults to 50, but `limit = 0` is not
unbounded: `filters.limit || 50` coerces 0 to the default, so a query
over 51 matching rows returns a 50-row page (total still reports 51), and
the 51-session listing is likewise capped at 50. -/
theorem c9_limit_zero_caps_at_fifty :
    (getEvents { limit := some 0 } pageEventStore).1.length = 50 ∧
    (getEvents { limit := some 0 } pageEventStore).2 = 51 ∧
    (getEvents {} pageEventStore).1.length = 50 ∧
    (getSessions { limit := some 0 } pageSessionStore).length = 50 ∧
    pageSessionStore.sessions.length = 51 := by
  decide

/-- Claim C10.  In `getStats`, the `active_sessions` and `total_sessions`
counters come from unfiltered queries over the sessions table, so for
every store and every filter they coincide with the unfiltered stats —
while the same filters do restrict the event-derived fields, witnessed by
`total_events` on a concrete store. -/
theorem c10_session_counters_ignore_filters :
    (∀ (f : StatsFilters) (st : Store),
      (getStats f st).active_sessions = (getStats {} st).active_sessions ∧
      (getStats f st).total_sessions = (getStats {} st).total_sessions) ∧
    (getStats { agentType := some "codex" } statsDemoStore).total_events
      ≠ (getStats {} statsDemoStore).total_events ∧
    (getStats { agentType := some "codex" } statsDemoStore).active_sessions
      = (getStats {} statsDemoStore).active_sessions := by
  refine ⟨fun f st => ⟨rfl, rfl⟩, by decide, rfl⟩

/-- Claim C3, amended.  Ingesting any event for a session that is in
status `ended` refreshes its `last_event_at` to the ingest time, but the
status stays `ended`: the upsert's CASE keeps `ended`, and `endSession`
(on a `session_end` event) re-asserts it.  No resurrection to `active`
occurs. -/
theorem c3_ended_sessions_stay_ended (now kb : Nat) (ev : NewEvent)
    (st : Store) (s : SessionRow)
    (hfind : findSession st ev.session_id = some s)
    (hended : s.status = .ended) :
    ∃ s2, findSession (insertEvent now kb ev st).1 ev.session_id = some s2 ∧
      s2.status = .ended ∧ s2.last_event_at = now := by
  rw [findSession_insertEvent]
  have h1 : findSession
      (upsertAgent now (ev.agent_type ++ "-default") ev.agent_type none st)
      ev.session_id = some s := by
    rw [findSession_upsertAgent]
    exact hfind
  have h2 := findSession_upsertSession_hit now ev.session_id
    (ev.agent_type ++ "-default") ev.agent_type ev.project ev.branch _ s h1
  have hstat : (refreshSession now (orNullStr ev.project)
      (orNullStr ev.branch) s).status = SessionStatus.ended := by
    simp [refreshSession, hended]
  by_cases he : ev.event_type = .session_end
  · refine ⟨endSessionRow now (refreshSession now (orNullStr ev.project)
      (orNullStr ev.branch) s), ?_, rfl, rfl⟩
    show findSession (lifecycleStep now ev st) ev.session_id = _
    simp only [lifecycleStep, he, if_true]
    exact findSession_endSession now ev.session_id _ _ h2
  · refine ⟨refreshSession now (orNullStr ev.project) (orNullStr ev.branch) s,
      ?_, hstat, rfl⟩
    show findSession (lifecycleStep now ev st) ev.session_id = _
    simp only [lifecycleStep, he, if_false]
    exact h2

/-- Witness for the amended C3 theorem at the concrete ended session. -/
theorem c3_ended_sessions_stay_ended_witness :
    ∃ s2, findSession (insertEvent 7 10 liveEventS9 endedStore).1
        liveEventS9.session_id = some s2 ∧
      s2.status = .ended ∧ s2.last_event_at = 7 :=
  c3_ended_sessions_stay_ended 7 10 liveEventS9 endedStore endedSession
    (by decide) (by decide)

/-- Claim C4, amended.  A run of the idle sweeper performs a single
update: every stale active session becomes idle, idle sessions are left
untouched (never transitioned to ended), no `ended_at` is written, and the
reported change count is the number of stale active sessions. -/
theorem c4_sweeper_single_update (now t : Nat) (st : Store) :
    (∀ s ∈ st.sessions, s.status = .idle →
      s ∈ (sessionCheckerTick now t st).1.sessions) ∧
    (∀ s ∈ st.sessions, isStaleActive now t s = true →
      { s with status := SessionStatus.idle }
        ∈ (sessionCheckerTick now t st).1.sessions) ∧
    ((sessionCheckerTick now t st).1.sessions.map (fun s => s.ended_at)
      = st.sessions.map fun s => s.ended_at) ∧
    (sessionCheckerTick now t st).2
      = (st.sessions.filter (isStaleActive now t)).length := by
  refine ⟨?_, ?_, ?_, ?_⟩
  · intro s hmem hidle
    have hstale : isStaleActive now t s = false := by
      simp [isStaleActive, hidle]
    have hmap := List.mem_map_of_mem
      (fun s => if isStaleActive now t s then
        { s with status := SessionStatus.idle } else s) hmem
    simpa [sessionCheckerTick, updateIdleSessions, hstale] using hmap
  · intro s hmem hstale
    have hmap := List.mem_map_of_mem
      (fun s => if isStaleActive now t s then
        { s with status := SessionStatus.idle } else s) hmem
    simpa [sessionCheckerTick, updateIdleSessions, hstale] using hmap
  · show (st.sessions.map _).map _ = _
    rw [List.map_map]
    apply List.map_congr_left
    intro s _
    by_cases h : isStaleActive now t s = true <;> simp [h]
  · simp [sessionCheckerTick, updateIdleSessions,
      List.countP_eq_length_filter]

/-- Witness for the amended C4 theorem: the stale idle session is still
present, unchanged, after a sweeper tick. -/
theorem c4_sweeper_single_update_witness :
    staleIdleSession ∈ (sessionCheckerTick 100 5 staleIdleStore).1.sessions :=
  (c4_sweeper_single_update 100 5 staleIdleStore).1 staleIdleSession
    (by decide) (by decide)

/-- Claim C5.  `event_id` uniqueness: from a store with no row carrying
`e`, any sequence of schema-valid ingests one of which carries
`event_id = e` leaves exactly one row with that `event_id`; and an ingest
whose `event_id` is already present is answered with the silent
`duplicate` result (the UNIQUE rejection is swallowed, never rethrown) and
adds no event row. -/
theorem c5_event_id_unique
    (kb : Nat) (ops : List (Nat × NewEvent)) (e : String) (st : Store)
    (now2 : Nat) (ev2 : NewEvent) (st2 : Store) (e2 : String)
    (h0 : countEventId e st = 0)
    (hallow : ∀ op ∈ ops, schemaAllowsEventType op.2.event_type = true)
    (hcarry : ∃ op ∈ ops, orNullStr op.2.event_id = some e)
    (hallow2 : schemaAllowsEventType ev2.event_type = true)
    (hid2 : orNullStr ev2.event_id = some e2)
    (hdup2 : 0 < countEventId e2 st2) :
    countEventId e (runIngest kb ops st) = 1 ∧
    (insertEvent now2 kb ev2 st2).2 = .duplicate ∧
    (insertEvent now2 kb ev2 st2).1.events = st2.events := by
  have htaken : eventIdTaken (lifecycleStep now2 ev2 st2)
      (orNullStr ev2.event_id) = true := by
    rw [eventIdTaken_lifecycleStep, hid2]
    exact (eventIdTaken_iff_pos st2 e2).mpr hdup2
  have hins := insertEvent_dup now2 kb ev2 st2 hallow2 htaken
  refine ⟨runIngest_reaches_one kb e ops st h0 hallow hcarry, ?_, ?_⟩
  · rw [hins]
  · rw [hins]
    exact lifecycleStep_events now2 ev2 st2

/-- Witness for C5: ingesting `dupEvent` twice from an empty store leaves
exactly one row with its `event_id`, and the second ingest against the
already-populated store is a silent duplicate. -/
theorem c5_event_id_unique_witness :
    countEventId "evt-duplicate-no-refresh"
      (runIngest 10 [(3, dupEvent), (5, dupEvent)] emptyStore) = 1 ∧
    (insertEvent 5 10 dupEvent dupStore1).2 = .duplicate ∧
    (insertEvent 5 10 dupEvent dupStore1).1.events = dupStore1.events :=
  c5_event_id_unique 10 [(3, dupEvent), (5, dupEvent)]
    "evt-duplicate-no-refresh" emptyStore 5 dupEvent dupStore1
    "evt-duplicate-no-refresh" (by decide)
    (by intro op hop
        rcases List.mem_cons.mp hop with h | h
        · rw [h]; decide
        · rcases List.mem_cons.mp h with h2 | h2
          · rw [h2]; decide
          · exact absurd h2 (List.not_mem_nil op))
    ⟨(3, dupEvent), List.mem_cons_self _ _, by decide⟩
    (by decide) (by decide) (by decide)

set_option maxRecDepth 8192 in
/-- Claim C6, counterexample.  A 1024-byte ASCII string under a 1 KiB cap:
its canonical JSON serialization is 1026 bytes, over the cap, yet
`truncateMetadata` measures the raw string (1024 bytes, within the cap)
and stores it unmodified with the truncated flag clear — so the flag is
not 1 whenever the canonical JSON serialization exceeds the cap. -/
theorem c6_truncation_counterexample :
    1 * 1024 < utf8Len (safeJsonStringify (Json.str bigString)) ∧
    (truncateMetadata 1 (Json.str bigString)).2 = false ∧
    (truncateMetadata 1 (Json.str bigString)).1 = bigString := by
  decide

/-- Claim C6, amended.  The stored metadata string always fits the
`maxPayloadKB × 1024` byte cap, and the truncated flag is set iff the
pre-truncation measurement exceeds the cap — where the measurement is the
raw UTF-8 byte length for string metadata and the canonical JSON
serialization's byte length for all other metadata; the row persisted by
`insertEvent` carries exactly this string and flag. -/
theorem c6_truncation_cap_and_flag (kb now : Nat) (m : Json)
    (ev : NewEvent) (st : Store) (row : EventRow)
    (hrow : (insertEvent now kb ev st).2 = .created row) :
    utf8Len (truncateMetadata kb m).1 ≤ kb * 1024 ∧
    ((truncateMetadata kb m).2 = true ↔ kb * 1024 < measuredBytes m) ∧
    utf8Len row.metadata ≤ kb * 1024 ∧
    (row.payload_truncated = 1 ↔
      kb * 1024 < measuredBytes ev.metadata) := by
  obtain ⟨-, -, hmeta, hflag⟩ :=
    insertEvent_events_created now kb ev st row hrow
  obtain ⟨hlen1, hiff1⟩ := truncateMetadata_spec kb m
  obtain ⟨hlen2, hiff2⟩ := truncateMetadata_spec kb ev.metadata
  refine ⟨hlen1, hiff1, ?_, ?_⟩
  · rw [hmeta]
    exact hlen2
  · rw [hflag]
    cases htr : (truncateMetadata kb ev.metadata).2 with
    | false =>
      refine iff_of_false (by simp [htr]) fun h => ?_
      have hcontr := hiff2.mpr h
      rw [htr] at hcontr
      exact absurd hcontr (by simp)
    | true =>
      exact iff_of_true (by simp [htr]) (hiff2.mp htr)

/-- Witness for the amended C6 theorem on a small persisted payload. -/
theorem c6_truncation_cap_and_flag_witness :
    utf8Len (truncateMetadata 1 (Json.str "hi")).1 ≤ 1 * 1024 ∧
    ((truncateMetadata 1 (Json.str "hi")).2 = true ↔
      1 * 1024 < measuredBytes (Json.str "hi")) ∧
    utf8Len tinyMetaRow.metadata ≤ 1 * 1024 ∧
    (tinyMetaRow.payload_truncated = 1 ↔
      1 * 1024 < measuredBytes tinyMetaEvent.metadata) :=
  c6_truncation_cap_and_flag 1 0 (Json.str "hi") tinyMetaEvent emptyStore
    tinyMetaRow (by decide)

end AgentMonitor
